import Mathlib

set_option maxHeartbeats 1000000

/-- Result of one HTTP POST attempt in the delivery loop (`_post_loop`):
either a response with a status code was received, or the request raised a
transport error (`requests.RequestException`). -/
inductive PostResult where
  | response (status : Nat)
  | transportError
deriving DecidableEq

/-- Observable events of the delivery loop, in program order: taking a
metrics sample (`_collect_metrics()`), issuing the POST, sleeping the
backoff duration (`time.sleep(backoff)`), and one one-second chunk of the
post-interval sleep (`time.sleep(1)` inside the `for` loop). -/
inductive Event where
  | sample
  | post (r : PostResult)
  | sleepBackoff (d : Nat)
  | sleepInterval1
deriving DecidableEq

/-- Configuration consumed by the delivery loop: `POST_INTERVAL` seconds. -/
structure Config where
  postInterval : Nat
deriving DecidableEq

/-- Mutable state of the delivery loop: the current backoff (`backoff`,
line 159, in whole seconds — every value it takes is an integer) and the
index of the next read of the shutdown flag.  Each time the loop consults
`_shutdown` it consumes one read index, so a flag schedule `Nat → Bool`
describes when the asynchronous signal handler has set the flag. -/
structure LoopState where
  backoff : Nat
  reads : Nat
deriving DecidableEq

/-- `resp.status_code // 100 == 2` (line 166). -/
def is2xx (s : Nat) : Bool := s / 100 == 2

/-- The outcome-classification branch of `_post_loop` (lines 166-178):
on a 2xx response the backoff resets to 1 and nothing is slept; on any
other response, and on a transport error, the loop sleeps the current
backoff and then doubles it, capped at 60. -/
def afterPost (r : PostResult) (st : LoopState) : List Event × LoopState :=
  match r with
  | PostResult.response s =>
      if is2xx s then
        ([], { st with backoff := 1 })
      else
        ([Event.sleepBackoff st.backoff], { st with backoff := min (st.backoff * 2) 60 })
  | PostResult.transportError =>
      ([Event.sleepBackoff st.backoff], { st with backoff := min (st.backoff * 2) 60 })

/-- The post-interval sleep (lines 181-184): `for _ in range(POST_INTERVAL)`,
each iteration first reads `_shutdown` (breaking if set) and then sleeps one
second.  Returns the emitted events and the next flag-read index. -/
def intervalSleep (flag : Nat → Bool) : Nat → Nat → List Event × Nat
  | 0, k => ([], k)
  | n + 1, k =>
      if flag k then ([], k + 1)
      else
        let r := intervalSleep flag n (k + 1)
        (Event.sleepInterval1 :: r.1, r.2)

/-- The delivery loop `_post_loop` (lines 162-184), run for as many cycles as
there are entries in `results` (the outcome of each successive POST).  Each
iteration first reads `_shutdown` (the `while not _shutdown` condition);
if set, the loop returns (third component `true`).  Otherwise it samples,
posts, applies the outcome branch, and performs the chunked interval sleep.
If `results` runs out with the flag still unset the loop is still running
(third component `false`). -/
def runFrom (cfg : Config) (flag : Nat → Bool) :
    List PostResult → LoopState → List Event × LoopState × Bool
  | [], st =>
      if flag st.reads then ([], ⟨st.backoff, st.reads + 1⟩, true)
      else ([], ⟨st.backoff, st.reads + 1⟩, false)
  | r :: rs, st =>
      if flag st.reads then ([], ⟨st.backoff, st.reads + 1⟩, true)
      else
        let st1 : LoopState := ⟨st.backoff, st.reads + 1⟩
        let pr := afterPost r st1
        let isl := intervalSleep flag cfg.postInterval pr.2.reads
        let st2 : LoopState := ⟨pr.2.backoff, isl.2⟩
        let rest := runFrom cfg flag rs st2
        (Event.sample :: Event.post r :: (pr.1 ++ isl.1 ++ rest.1), rest.2)

/-- One backoff update on failure: `backoff = min(backoff * 2.0, backoff_max)`
(lines 174 and 178). -/
def nextBackoff (b : Nat) : Nat := min (b * 2) 60

/-- The backoff value after `n` consecutive failure updates starting from `b`. -/
def backoffAfter : Nat → Nat → Nat
  | 0, b => b
  | n + 1, b => backoffAfter n (nextBackoff b)

/-- A POST outcome the code treats as a failure: a non-2xx response or a
transport error. -/
def failedResult : PostResult → Bool
  | PostResult.response s => !is2xx s
  | PostResult.transportError => true

/-- One entry of `psutil.process_iter(attrs=["name", "cmdline"])` as
`_running_process_names` consumes it: the prefetched `name` value (`None`
modelled as `none`) and `cmdline` list, plus whether touching the entry
raises `NoSuchProcess`/`AccessDenied` (`accessible = false`, line 109). -/
structure ProcInfo where
  name : Option String
  cmdline : List String
  accessible : Bool
deriving DecidableEq

/-- `name = proc.info.get("name") or (proc.info.get("cmdline") or ["unknown"])[0]`
followed by `if not name: name = "unknown"` (lines 103-105), with Python
truthiness: `None` and `""` are falsy and an empty `cmdline` is falsy. -/
def procDisplayName (p : ProcInfo) : String :=
  let fromCmd : String :=
    match p.cmdline with
    | [] => "unknown"
    | c :: _ => c
  let name :=
    match p.name with
    | some s => if s = "" then fromCmd else s
    | none => fromCmd
  if name = "" then "unknown" else name

/-- `_running_process_names` (lines 99-111): iterate the process table with
accumulator `acc` (`names`), skip entries that raise, append each display
name, and break as soon as `len(names) >= limit` — the check runs after the
append.  `limit` is the configured `PROCESS_LIMIT`, an arbitrary integer
parsed from the environment (line 56). -/
def runningProcessNames (limit : Int) : List ProcInfo → List String → List String
  | [], acc => acc
  | p :: ps, acc =>
      if p.accessible then
        let acc2 := acc ++ [procDisplayName p]
        if limit ≤ (acc2.length : Int) then acc2
        else runningProcessNames limit ps acc2
      else runningProcessNames limit ps acc

/-- One character as `json.dumps` writes it inside a string literal: quote
and backslash receive a backslash escape; every other character is carried
through (`ensure_ascii=False` passes non-ASCII through; control characters
are carried literally here, which preserves the decoded characters and the
list length exactly as the `json` module does). -/
def escapeChar (c : Char) : List Char :=
  if c = '"' ∨ c = '\\' then ['\\', c] else [c]

/-- The escaped body of a JSON string literal. -/
def escapeString : List Char → List Char
  | [] => []
  | c :: cs => escapeChar c ++ escapeString cs

/-- A JSON string literal for `s`. -/
def encodeString (s : String) : List Char :=
  '"' :: (escapeString s.data ++ ['"'])

/-- The items of a JSON array, separated by the comma-space that
`json.dumps` emits with its default separators. -/
def encodeItems : List String → List Char
  | [] => []
  | [s] => encodeString s
  | s :: ss => encodeString s ++ ',' :: ' ' :: encodeItems ss

/-- `json.dumps` of a list of strings (line 137: default separators,
`ensure_ascii=False`), as a character list. -/
def jsonEncodeStringList (l : List String) : List Char :=
  match l with
  | [] => ['[', ']']
  | s :: ss => '[' :: (encodeItems (s :: ss) ++ [']'])

/-- Decode the body of a JSON string literal after its opening quote: a
backslash escape yields the escaped character, a bare quote ends the
literal, anything else is literal. -/
def parseStringBody : List Char → Option (List Char × List Char)
  | [] => none
  | c :: rest =>
      if c = '\\' then
        match rest with
        | [] => none
        | d :: rest2 => (parseStringBody rest2).map fun p => (d :: p.1, p.2)
      else if c = '"' then some ([], rest)
      else (parseStringBody rest).map fun p => (c :: p.1, p.2)

/-- Decode the items of a non-empty JSON string array: a string literal,
then either `]` (end of array) or `, ` and further items.  `fuel` bounds
the number of items. -/
def parseItems : Nat → List Char → Option (List (List Char) × List Char)
  | 0, _ => none
  | _ + 1, [] => none
  | fuel + 1, c :: rest =>
      if c = '"' then
        match parseStringBody rest with
        | none => none
        | some (s, rest1) =>
            match rest1 with
            | [] => none
            | d :: rest2 =>
                if d = ']' then some ([s], rest2)
                else if d = ',' then
                  match rest2 with
                  | [] => none
                  | e :: rest3 =>
                      if e = ' ' then
                        match parseItems fuel rest3 with
                        | none => none
                        | some (ss, r) => some (s :: ss, r)
                      else none
                else none
      else none

/-- Decode a JSON array of string literals (the shape `json.dumps` produces
for a list of strings); the whole input must be consumed. -/
def jsonDecodeStringList (input : List Char) : Option (List (List Char)) :=
  match input with
  | [] => none
  | c :: rest =>
      if c = '[' then
        if rest = [']'] then some []
        else
          match parseItems rest.length rest with
          | none => none
          | some (ss, rem) => if rem = [] then some ss else none
      else none

/-- The raw values `_collect_metrics` reads before clamping (lines 117-133):
`int(round(psutil.cpu_percent(...)))`, `int(round(mem.percent))`, the
summed disk bytes, the cumulative network counters and
`int(time.time() - boot_time)` — all arbitrary integers — plus the process
table consumed by `_running_process_names`. -/
structure RawSample where
  cpu : Int
  mem : Int
  disk : Int
  netIn : Int
  netOut : Int
  uptime : Int
  procs : List ProcInfo
deriving DecidableEq

/-- The payload dictionary built by `_collect_metrics` (lines 139-149). -/
structure Payload where
  server_name : String
  cpu_usage : Int
  memory_usage : Int
  disk_space_used : Int
  network_traffic_in : Int
  network_traffic_out : Int
  uptime : Int
  status : String
  running_processes : List Char
deriving DecidableEq

/-- `_collect_metrics` (lines 114-150): percentages are clamped into
[0, 100] with `max(0, min(x, 100))`, counters are clamped non-negative with
`max(0, x)`, `status` is the literal `"running"`, and the process names are
stored as a JSON-encoded string (`json.dumps(procs, ensure_ascii=False)`,
line 137). -/
def collectMetrics (serverName : String) (limit : Int) (raw : RawSample) : Payload :=
  { server_name := serverName
    cpu_usage := max 0 (min raw.cpu 100)
    memory_usage := max 0 (min raw.mem 100)
    disk_space_used := max 0 raw.disk
    network_traffic_in := max 0 raw.netIn
    network_traffic_out := max 0 raw.netOut
    uptime := max 0 raw.uptime
    status := "running"
    running_processes := jsonEncodeStringList (runningProcessNames limit raw.procs []) }

/-- `SERVER_NAME = os.getenv("SERVER_NAME", os.uname().nodename if
hasattr(os, "uname") else "unknown")` (line 54): the environment value when
the variable is set — even when set to the empty string — otherwise the
uname nodename when the platform has `os.uname`, otherwise `"unknown"`. -/
def serverNameOf (env : Option String) (nodename : Option String) : String :=
  match env with
  | some v => v
  | none =>
      match nodename with
      | some n => n
      | none => "unknown"

/-- The request headers built at the top of `_post_loop` (lines 155-157):
`Content-Type: application/json` always; `Authorization: Bearer <token>`
only when `if API_TOKEN:` is truthy, i.e. the variable is set to a
non-empty string (`os.getenv` without default yields `None` when unset,
line 57). -/
def buildHeaders (apiToken : Option String) : List (String × String) :=
  let base := [("Content-Type", "application/json")]
  match apiToken with
  | none => base
  | some t => if t = "" then base else base ++ [("Authorization", "Bearer " ++ t)]

/-- One entry of `psutil.disk_partitions(all=False)` as `_unique_mountpoints`
consumes it: the mount path, the filesystem type string, and whether
`os.access(p.mountpoint, os.R_OK)` holds. -/
structure DiskPartition where
  mountpoint : String
  fstype : String
  readable : Bool
deriving DecidableEq

/-- The pseudo-filesystem name stems skipped on line 73. -/
def pseudoFsStems : List String :=
  ["proc", "sysfs", "devfs", "tmpfs", "devtmpfs", "overlay"]

/-- `any(p.fstype.lower().startswith(x) for x in (...))` (line 73). -/
def isPseudoFs (fstype : String) : Bool :=
  pseudoFsStems.any fun x => fstype.toLower.startsWith x

/-- Insertion into a Python `set`, modelled as a duplicate-free list:
adding a present element changes nothing. -/
def setInsert (s : List String) (x : String) : List String :=
  if x ∈ s then s else s ++ [x]

/-- The loop body of `_unique_mountpoints` (lines 71-78): skip
pseudo-filesystems, skip unreadable mountpoints, add the rest. -/
def mountFoldStep (acc : List String) (p : DiskPartition) : List String :=
  if isPseudoFs p.fstype then acc
  else if p.readable then setInsert acc p.mountpoint
  else acc

/-- `_unique_mountpoints` (lines 69-81): collect the filtered mountpoints
into a set, then always add `"/"` as a fallback (line 80). -/
def uniqueMountpoints (parts : List DiskPartition) : List String :=
  setInsert (parts.foldl mountFoldStep []) "/"

/-- The usage oracle: `psutil.disk_usage(m).used` as a non-negative byte
count, or `none` when the call raises (the `except` on line 94). -/
def sumUsage (usage : String → Option Nat) : List String → Nat
  | [] => 0
  | m :: ms => (usage m).getD 0 + sumUsage usage ms

/-- The accumulation loop of `_disk_used_bytes` (lines 87-95): skip
mountpoints already in `seen`, skip mountpoints whose usage call raises,
otherwise add the used bytes and record the mountpoint in `seen`. -/
def diskGo (usage : String → Option Nat) : List String → Nat → List String → Nat
  | [], total, _ => total
  | m :: ms, total, seen =>
      if m ∈ seen then diskGo usage ms total seen
      else
        match usage m with
        | none => diskGo usage ms total seen
        | some u => diskGo usage ms (total + u) (seen ++ [m])

/-- `_disk_used_bytes` (lines 84-96). -/
def diskUsedBytes (parts : List DiskPartition) (usage : String → Option Nat) : Nat :=
  diskGo usage (uniqueMountpoints parts) 0 []

/-- A concrete accessible process-table entry, for concrete instances. -/
def procEx : ProcInfo := { name := some "agent", cmdline := [], accessible := true }

/-- A concrete raw sample, for concrete instances. -/
def rawEx : RawSample :=
  { cpu := 15, mem := 40, disk := 1000, netIn := 10, netOut := 20, uptime := 3600,
    procs := [procEx] }

theorem nextBackoff_min (a : Nat) : nextBackoff (min a 60) = min (a * 2) 60 := by
  unfold nextBackoff
  omega

theorem backoffAfter_succ_eq (n b : Nat) :
    backoffAfter (n + 1) b = nextBackoff (backoffAfter n b) := by
  induction n generalizing b with
  | zero => rfl
  | succ n ih =>
      show backoffAfter (n + 1) (nextBackoff b) = _
      rw [ih]
      rfl

theorem backoffAfter_one (n : Nat) : backoffAfter n 1 = min (2 ^ n) 60 := by
  induction n with
  | zero => rfl
  | succ n ih =>
      rw [backoffAfter_succ_eq, ih, nextBackoff_min, ← pow_succ]

theorem intervalSleep_false (n k : Nat) :
    intervalSleep (fun _ => false) n k =
      (List.replicate n Event.sleepInterval1, k + n) := by
  induction n generalizing k with
  | zero => rfl
  | succ n ih =>
      simp only [intervalSleep, Bool.false_eq_true, if_false, ih,
        List.replicate_succ]
      congr 1
      omega

theorem runFrom_allFail_backoff (cfg : Config) (n b k : Nat) :
    ((runFrom cfg (fun _ => false)
        (List.replicate n PostResult.transportError) ⟨b, k⟩).2.1).backoff
      = backoffAfter n b := by
  induction n generalizing b k with
  | zero => rfl
  | succ n ih =>
      rw [List.replicate_succ]
      simp only [runFrom, Bool.false_eq_true, if_false, afterPost,
        intervalSleep_false]
      exact ih (nextBackoff b) _

/-- Claim C1: starting from its initial value of 1 (line 159), the delivery
loop's backoff doubles after each consecutive failed delivery and is capped
at 60 (lines 173-178): after `N` consecutive failures the delay equals
`min (2 ^ N) 60`, and in particular after 7 consecutive failures it is 60,
not 128. -/
theorem backoff_after_consecutive_failures (cfg : Config) (N : Nat) :
    ((runFrom cfg (fun _ => false)
        (List.replicate N PostResult.transportError) ⟨1, 0⟩).2.1).backoff
        = min (2 ^ N) 60
    ∧ ((runFrom cfg (fun _ => false)
        (List.replicate 7 PostResult.transportError) ⟨1, 0⟩).2.1).backoff = 60 := by
  constructor
  · rw [runFrom_allFail_backoff, backoffAfter_one]
  · rw [runFrom_allFail_backoff, backoffAfter_one]
    decide

/-- Claim C2: a delivery cycle whose POST receives a response with status in
the 200-299 range (exactly the statuses with `status // 100 == 2`, line 166)
resets the backoff to 1 regardless of its prior value; a cycle with any
other status, or with a transport error, instead doubles it (cap 60), which
never yields 1 again (the backoff is always ≥ 1 in the loop). -/
theorem backoff_reset_iff_2xx (cfg : Config) (b k s : Nat) (hb : 1 ≤ b) :
    (((runFrom cfg (fun _ => false) [PostResult.response s] ⟨b, k⟩).2.1).backoff
        = if is2xx s then 1 else min (b * 2) 60)
    ∧ (is2xx s = true ↔ 200 ≤ s ∧ s ≤ 299)
    ∧ (is2xx s = false → 1 < min (b * 2) 60)
    ∧ ((runFrom cfg (fun _ => false) [PostResult.transportError] ⟨b, k⟩).2.1).backoff
        = min (b * 2) 60
    ∧ 1 < min (b * 2) 60 := by
  refine ⟨?_, ?_, ?_, ?_, ?_⟩
  · by_cases h : is2xx s
    · simp [runFrom, afterPost, intervalSleep_false, h]
    · simp [runFrom, afterPost, intervalSleep_false, h]
  · simp only [is2xx, beq_iff_eq]
    omega
  · intro _
    omega
  · simp [runFrom, afterPost, intervalSleep_false]
  · omega

/-- Concrete instance of C2: with prior backoff 7, a 503 response does not
reset the backoff, a transport error does not reset it, and the 2xx
characterization holds at 503. -/
theorem backoff_reset_iff_2xx_witness :
    (((runFrom ⟨1⟩ (fun _ => false) [PostResult.response 503] ⟨7, 0⟩).2.1).backoff
        = if is2xx 503 then 1 else min (7 * 2) 60)
    ∧ (is2xx 503 = true ↔ 200 ≤ 503 ∧ 503 ≤ 299)
    ∧ (is2xx 503 = false → 1 < min (7 * 2) 60)
    ∧ ((runFrom ⟨1⟩ (fun _ => false) [PostResult.transportError] ⟨7, 0⟩).2.1).backoff
        = min (7 * 2) 60
    ∧ 1 < min (7 * 2) 60 :=
  backoff_reset_iff_2xx ⟨1⟩ 7 0 503 (by decide)

/-- Claim C3: on a failed delivery attempt (non-2xx response or transport
error) the loop sleeps the current backoff duration (line 173 / 177) and then
still performs the full configured post-interval sleep (lines 181-184); the
two waits are sequential in the emitted trace, the backoff wait never
replaces the interval wait. -/
theorem failure_sleeps_backoff_then_full_interval (cfg : Config) (b k : Nat)
    (r : PostResult) (hr : failedResult r = true) :
    (runFrom cfg (fun _ => false) [r] ⟨b, k⟩).1
      = Event.sample :: Event.post r :: Event.sleepBackoff b ::
          List.replicate cfg.postInterval Event.sleepInterval1 := by
  cases r with
  | transportError =>
      simp [runFrom, afterPost, intervalSleep_false]
  | response s =>
      have h : is2xx s = false := by simpa [failedResult] using hr
      simp [runFrom, afterPost, intervalSleep_false, h]

/-- Concrete instance of C3: a transport-error cycle with backoff 1 and
interval 2 sleeps the backoff and then both interval seconds. -/
theorem failure_sleeps_backoff_then_full_interval_witness :
    (runFrom ⟨2⟩ (fun _ => false) [PostResult.transportError] ⟨1, 0⟩).1
      = Event.sample :: Event.post PostResult.transportError :: Event.sleepBackoff 1 ::
          List.replicate 2 Event.sleepInterval1 :=
  failure_sleeps_backoff_then_full_interval ⟨2⟩ 1 0 PostResult.transportError rfl

/-- Counterexample to claim C4: the code has no poll of `_shutdown` between
a failed POST and `time.sleep(backoff)` (lines 175-177).  With a flag
schedule that is set at every poll from index 1 on — i.e. the flag is set
immediately after the top-of-cycle check, during the POST at the latest —
the trace still contains a backoff sleep, so it is not true that once the
flag is set no backoff sleep begins. -/
theorem shutdown_backoff_sleep_after_flag_set :
    (runFrom ⟨5⟩ (fun k => decide (1 ≤ k)) [PostResult.transportError] ⟨1, 0⟩).1
      = [Event.sample, Event.post PostResult.transportError, Event.sleepBackoff 1] := by
  rfl

/-- Claim C4 (amended): the loop polls `ShutdownFlag` before starting each
cycle (the `while not _shutdown` condition, line 162) and before each
one-second increment of the interval sleep (line 182); if the flag is set
at a top-of-cycle poll, the loop stops with no further sampling, network
call, or sleeping, and if it is set at an interval-sleep poll, no further
interval second is slept.  (There is, however, no poll before the backoff
wait itself; see the counterexample.) -/
theorem shutdown_poll_points_amended (cfg : Config) (flag : Nat → Bool)
    (results : List PostResult) (st : LoopState) (n k : Nat)
    (hf : flag st.reads = true) (hk : flag k = true) :
    (runFrom cfg flag results st).1 = []
    ∧ (runFrom cfg flag results st).2.2 = true
    ∧ (intervalSleep flag n k).1 = [] := by
  refine ⟨?_, ?_, ?_⟩
  · cases results <;> simp [runFrom, hf]
  · cases results <;> simp [runFrom, hf]
  · cases n <;> simp [intervalSleep, hk]

/-- Concrete instance of the amended C4: with the flag already set, a
pending cycle never starts and an interval sleep emits nothing. -/
theorem shutdown_poll_points_amended_witness :
    (runFrom ⟨3⟩ (fun _ => true) [PostResult.transportError] ⟨1, 0⟩).1 = []
    ∧ (runFrom ⟨3⟩ (fun _ => true) [PostResult.transportError] ⟨1, 0⟩).2.2 = true
    ∧ (intervalSleep (fun _ => true) 2 0).1 = [] :=
  shutdown_poll_points_amended ⟨3⟩ (fun _ => true) [PostResult.transportError] ⟨1, 0⟩ 2 0 rfl rfl

theorem intervalSleep_threshold (k0 n k : Nat) (hk : k ≤ k0) (hn : k0 - k < n) :
    intervalSleep (fun j => decide (k0 ≤ j)) n k
      = (List.replicate (k0 - k) Event.sleepInterval1, k0 + 1) := by
  induction n generalizing k with
  | zero => omega
  | succ n ih =>
      by_cases h : k = k0
      · subst h
        simp [intervalSleep]
      · have hflag : (decide (k0 ≤ k)) = false := by
          simp only [decide_eq_false_iff_not]
          omega
        simp only [intervalSleep, hflag, Bool.false_eq_true, if_false]
        rw [ih (k + 1) (by omega) (by omega)]
        have hrep : k0 - k = (k0 - (k + 1)) + 1 := by omega
        rw [hrep, List.replicate_succ]

/-- Claim C5: the post-interval sleep proceeds in one-second increments,
re-checking `ShutdownFlag` before each increment (lines 181-184).  If the
flag becomes set during the interval sleep — here: the first poll that sees
it set is poll `k0`, an interval-sleep poll of the first cycle — the loop
stops sleeping after the second in progress and `run()` returns: the trace
ends after `k0 - 1` interval seconds, strictly fewer than the configured
interval, and the loop reports termination. -/
theorem shutdown_during_interval_sleep_prompt (cfg : Config) (k0 b s : Nat)
    (h1 : 1 ≤ k0) (h2 : k0 ≤ cfg.postInterval) (hs : is2xx s = true) :
    (runFrom cfg (fun j => decide (k0 ≤ j)) [PostResult.response s] ⟨b, 0⟩).1
        = Event.sample :: Event.post (PostResult.response s)
            :: List.replicate (k0 - 1) Event.sleepInterval1
    ∧ (runFrom cfg (fun j => decide (k0 ≤ j)) [PostResult.response s] ⟨b, 0⟩).2.2 = true
    ∧ k0 - 1 < cfg.postInterval := by
  have h0 : (decide (k0 ≤ 0)) = false := by
    simp only [decide_eq_false_iff_not]
    omega
  have hend : (decide (k0 ≤ k0 + 1)) = true := by
    simp only [decide_eq_true_eq]
    omega
  have hisl := intervalSleep_threshold k0 cfg.postInterval 1 h1 (by omega)
  refine ⟨?_, ?_, by omega⟩
  · simp [runFrom, h0, afterPost, hs, hisl, hend]
    rw [if_neg (show ¬ k0 = 0 by omega)]
  · simp [runFrom, h0, afterPost, hs, hisl, hend]
    rw [if_neg (show ¬ k0 = 0 by omega)]

/-- Concrete instance of C5: interval 30, flag first seen set at poll 5 —
the loop sleeps only 4 interval seconds (not 30) and returns. -/
theorem shutdown_during_interval_sleep_prompt_witness :
    (runFrom ⟨30⟩ (fun j => decide (5 ≤ j)) [PostResult.response 200] ⟨1, 0⟩).1
        = Event.sample :: Event.post (PostResult.response 200)
            :: List.replicate (5 - 1) Event.sleepInterval1
    ∧ (runFrom ⟨30⟩ (fun j => decide (5 ≤ j)) [PostResult.response 200] ⟨1, 0⟩).2.2 = true
    ∧ 5 - 1 < (30 : Nat) :=
  shutdown_during_interval_sleep_prompt ⟨30⟩ 5 1 200 (by decide) (by decide) (by decide)

/-- Claim C6: for every raw sample the serialized `cpu_usage` and
`memory_usage` lie in [0, 100] — an out-of-range raw 150 becomes 100 and a
raw -5 becomes 0 — and `disk_space_used`, `network_traffic_in`,
`network_traffic_out` and `uptime` are non-negative, negative raw values
being clamped to 0 (lines 141-146). -/
theorem payload_fields_clamped (name : String) (limit : Int) (raw : RawSample) :
    (0 ≤ (collectMetrics name limit raw).cpu_usage
      ∧ (collectMetrics name limit raw).cpu_usage ≤ 100
      ∧ 0 ≤ (collectMetrics name limit raw).memory_usage
      ∧ (collectMetrics name limit raw).memory_usage ≤ 100
      ∧ 0 ≤ (collectMetrics name limit raw).disk_space_used
      ∧ 0 ≤ (collectMetrics name limit raw).network_traffic_in
      ∧ 0 ≤ (collectMetrics name limit raw).network_traffic_out
      ∧ 0 ≤ (collectMetrics name limit raw).uptime)
    ∧ (collectMetrics name limit { raw with cpu := 150 }).cpu_usage = 100
    ∧ (collectMetrics name limit { raw with cpu := -5 }).cpu_usage = 0
    ∧ (collectMetrics name limit { raw with mem := 150 }).memory_usage = 100
    ∧ (collectMetrics name limit { raw with mem := -5 }).memory_usage = 0
    ∧ (collectMetrics name limit { raw with disk := -7 }).disk_space_used = 0
    ∧ (collectMetrics name limit { raw with netIn := -7 }).network_traffic_in = 0
    ∧ (collectMetrics name limit { raw with netOut := -7 }).network_traffic_out = 0
    ∧ (collectMetrics name limit { raw with uptime := -7 }).uptime = 0 := by
  simp only [collectMetrics]
  refine ⟨⟨?_, ?_, ?_, ?_, ?_, ?_, ?_, ?_⟩, ?_, ?_, ?_, ?_, ?_, ?_, ?_, ?_⟩ <;> omega

/-- Counterexample to claim C8: with the environment variable `SERVER_NAME`
set to the empty string, `os.getenv` returns it as-is (line 54) and the
payload's `server_name` is the empty string — so `server_name` is not
non-empty for every environment configuration. -/
theorem server_name_empty_env_counterexample :
    (collectMetrics (serverNameOf (some "") (some "host")) 40 rawEx).server_name = "" :=
  rfl

/-- Claim C8 (amended): the payload's `server_name` is non-empty whenever
the `SERVER_NAME` environment variable is unset (the fallback is the uname
nodename when that is non-empty, or the literal `"unknown"` on platforms
without `os.uname`) or set to a non-empty value; setting `SERVER_NAME` to
the empty string yields an empty `server_name`. -/
theorem server_name_nonempty_amended (env nodename : Option String)
    (limit : Int) (raw : RawSample)
    (henv : ∀ v, env = some v → v ≠ "")
    (hnode : ∀ n, nodename = some n → n ≠ "") :
    (collectMetrics (serverNameOf env nodename) limit raw).server_name ≠ "" := by
  cases env with
  | some v =>
      simp only [collectMetrics, serverNameOf]
      exact henv v rfl
  | none =>
      cases nodename with
      | some n =>
          simp only [collectMetrics, serverNameOf]
          exact hnode n rfl
      | none =>
          simp only [collectMetrics, serverNameOf]
          decide

/-- Concrete instance of the amended C8: `SERVER_NAME` unset, nodename
`"pi5"` — the payload's `server_name` is non-empty. -/
theorem server_name_nonempty_amended_witness :
    (collectMetrics (serverNameOf none (some "pi5")) 40 rawEx).server_name ≠ "" :=
  server_name_nonempty_amended none (some "pi5") 40 rawEx
    (by intro v hv; exact absurd hv (by simp))
    (by intro n hn; injection hn with h; subst h; decide)

/-- Claim C9: the `Authorization` header is attached if and only if
`API_TOKEN` is a set, non-empty string — `if API_TOKEN:` tests truthiness,
so the empty string attaches nothing (lines 156-157) — while
`Content-Type: application/json` is attached unconditionally (line 155). -/
theorem auth_header_iff_token (tok : Option String) :
    ((∃ v, ("Authorization", v) ∈ buildHeaders tok) ↔ ∃ t, tok = some t ∧ t ≠ "")
    ∧ ("Content-Type", "application/json") ∈ buildHeaders tok := by
  constructor
  · constructor
    · rintro ⟨v, hv⟩
      cases tok with
      | none => simp [buildHeaders] at hv
      | some t =>
          by_cases ht : t = ""
          · simp [buildHeaders, ht] at hv
          · exact ⟨t, rfl, ht⟩
    · rintro ⟨t, rfl, ht⟩
      exact ⟨"Bearer " ++ t, by simp [buildHeaders, ht]⟩
  · cases tok with
    | none => simp [buildHeaders]
    | some t =>
        by_cases ht : t = "" <;> simp [buildHeaders, ht]

theorem parseStringBody_escape (s : List Char) (rest : List Char) :
    parseStringBody (escapeString s ++ '"' :: rest) = some (s, rest) := by
  induction s with
  | nil =>
      show parseStringBody ('"' :: rest) = some ([], rest)
      rw [parseStringBody.eq_def]
      dsimp only
      rw [if_neg (by decide : ¬ ('"' : Char) = '\\'), if_pos rfl]
  | cons c cs ih =>
      by_cases hc : c = '"' ∨ c = '\\'
      · have he : escapeChar c = ['\\', c] := by simp [escapeChar, hc]
        rw [escapeString, he]
        show parseStringBody ('\\' :: c :: (escapeString cs ++ '"' :: rest)) = _
        show (parseStringBody (escapeString cs ++ '"' :: rest)).map (fun p => (c :: p.1, p.2))
          = some (c :: cs, rest)
        rw [ih]
        rfl
      · push_neg at hc
        have he : escapeChar c = [c] := by simp [escapeChar, hc.1, hc.2]
        rw [escapeString, he]
        show parseStringBody (c :: (escapeString cs ++ '"' :: rest)) = _
        rw [parseStringBody.eq_def]
        dsimp only
        rw [if_neg hc.2, if_neg hc.1, ih]
        rfl

theorem parseItems_encode (ss : List String) (s : String) (rest : List Char)
    (fuel : Nat) (hfuel : ss.length < fuel) :
    parseItems fuel (encodeItems (s :: ss) ++ ']' :: rest)
      = some ((s :: ss).map String.data, rest) := by
  induction ss generalizing s fuel with
  | nil =>
      obtain ⟨f, rfl⟩ : ∃ f, fuel = f + 1 := ⟨fuel - 1, by omega⟩
      show parseItems (f + 1) (encodeString s ++ ']' :: rest) = some ([s.data], rest)
      rw [encodeString]
      simp only [List.cons_append, List.append_assoc, List.singleton_append,
        List.nil_append]
      rw [parseItems, if_pos rfl, parseStringBody_escape]
      show (if (']' : Char) = ']' then some ([s.data], rest)
            else if (']' : Char) = ',' then
              match (rest : List Char) with
              | [] => none
              | e :: rest3 =>
                  if e = ' ' then
                    match parseItems f rest3 with
                    | none => none
                    | some (ss, r) => some (s.data :: ss, r)
                  else none
            else none) = some ([s.data], rest)
      rw [if_pos rfl]
  | cons t ts ih =>
      obtain ⟨f, rfl⟩ : ∃ f, fuel = f + 1 := ⟨fuel - 1, by omega⟩
      have hts : ts.length < f := by
        have := hfuel
        simp only [List.length_cons] at this
        omega
      show parseItems (f + 1)
          ((encodeString s ++ ',' :: ' ' :: encodeItems (t :: ts)) ++ ']' :: rest)
        = some ((s :: t :: ts).map String.data, rest)
      rw [encodeString]
      simp only [List.cons_append, List.append_assoc, List.singleton_append,
        List.nil_append]
      rw [parseItems, if_pos rfl, parseStringBody_escape]
      show (if (',' : Char) = ']' then some ([s.data], ' ' :: (encodeItems (t :: ts) ++ ']' :: rest))
           else if (',' : Char) = ',' then
             (if (' ' : Char) = ' ' then
               match parseItems f (encodeItems (t :: ts) ++ ']' :: rest) with
               | none => none
               | some (ss, r) => some (s.data :: ss, r)
              else none)
           else none) = some ((s :: t :: ts).map String.data, rest)
      rw [if_neg (by decide : ¬ (',' : Char) = ']'), if_pos rfl, if_pos rfl]
      rw [ih t f hts]
      rfl

theorem encodeItems_length_ge2 (s : String) (ss : List String) :
    2 ≤ (encodeItems (s :: ss)).length := by
  cases ss with
  | nil =>
      show 2 ≤ (encodeString s).length
      rw [encodeString]
      simp
  | cons t ts =>
      show 2 ≤ (encodeString s ++ ',' :: ' ' :: encodeItems (t :: ts)).length
      rw [encodeString]
      simp only [List.cons_append, List.length_cons, List.length_append]
      omega

theorem encodeItems_length_ge (s : String) (ss : List String) :
    ss.length ≤ (encodeItems (s :: ss)).length := by
  induction ss generalizing s with
  | nil => simp
  | cons t ts ih =>
      show (t :: ts).length ≤ (encodeString s ++ ',' :: ' ' :: encodeItems (t :: ts)).length
      have := ih t
      simp only [List.length_cons, List.length_append]
      simp only [List.length_cons] at this ⊢
      omega

theorem jsonDecode_encode (l : List String) :
    jsonDecodeStringList (jsonEncodeStringList l) = some (l.map String.data) := by
  cases l with
  | nil => rfl
  | cons s ss =>
      rw [jsonEncodeStringList, jsonDecodeStringList]
      rw [if_pos rfl]
      have hne : ¬ (encodeItems (s :: ss) ++ [']'] = [']']) := by
        intro h
        have hlen := congrArg List.length h
        simp only [List.length_append, List.length_cons, List.length_nil] at hlen
        have := encodeItems_length_ge2 s ss
        omega
      rw [if_neg hne]
      have hfuel : ss.length < (encodeItems (s :: ss) ++ [']']).length := by
        have h1 := encodeItems_length_ge s ss
        simp only [List.length_append, List.length_cons, List.length_nil]
        omega
      rw [show (encodeItems (s :: ss) ++ [']'] : List Char)
            = encodeItems (s :: ss) ++ ']' :: [] from rfl] at hfuel ⊢
      rw [parseItems_encode ss s [] _ hfuel]
      show (if ([] : List Char) = [] then some (List.map String.data (s :: ss)) else none)
          = some (List.map String.data (s :: ss))
      rw [if_pos rfl]

theorem runningProcessNames_le (limit : Int) (ps : List ProcInfo) (acc : List String)
    (hacc : (acc.length : Int) < limit) :
    ((runningProcessNames limit ps acc).length : Int) ≤ limit := by
  induction ps generalizing acc with
  | nil =>
      rw [runningProcessNames]
      omega
  | cons p ps ih =>
      rw [runningProcessNames]
      by_cases hp : p.accessible = true
      · rw [if_pos hp]
        by_cases hl : limit ≤ (((acc ++ [procDisplayName p]).length : Nat) : Int)
        · rw [if_pos hl]
          simp only [List.length_append, List.length_cons, List.length_nil] at hl ⊢
          push_cast at hl ⊢
          omega
        · rw [if_neg hl]
          apply ih
          omega
      · rw [if_neg hp]
        exact ih acc hacc

/-- Counterexample to claim C7: with `PROCESS_LIMIT` set to 0, the check
`if len(names) >= limit: break` runs only after the append (lines 106-108),
so one process name is still included: the decoded `running_processes`
list has length 1, which exceeds the configured limit 0. -/
theorem running_processes_cap_zero_counterexample :
    jsonDecodeStringList (collectMetrics "srv" 0 rawEx).running_processes
      = some [String.data "agent"]
    ∧ ¬ ((1 : Int) ≤ 0) := by
  constructor
  · rfl
  · decide

/-- Claim C7 (amended): for every configured `PROCESS_LIMIT ≥ 1` and every
process population, the payload's `running_processes` field JSON-decodes to
a sequence of strings whose length never exceeds `PROCESS_LIMIT`.  (Because
the length check runs only after appending, a limit ≤ 0 still admits one
entry; see the counterexample.) -/
theorem running_processes_capped_amended (name : String) (limit : Int)
    (raw : RawSample) (hl : 1 ≤ limit) :
    ∃ ds : List (List Char),
      jsonDecodeStringList (collectMetrics name limit raw).running_processes = some ds
      ∧ (ds.length : Int) ≤ limit := by
  refine ⟨(runningProcessNames limit raw.procs []).map String.data, ?_, ?_⟩
  · exact jsonDecode_encode _
  · rw [List.length_map]
    apply runningProcessNames_le
    simp only [List.length_nil]
    omega

/-- Concrete instance of the amended C7: limit 1, one running process —
the decoded list has length at most 1. -/
theorem running_processes_capped_amended_witness :
    ∃ ds : List (List Char),
      jsonDecodeStringList (collectMetrics "srv" 1 rawEx).running_processes = some ds
      ∧ (ds.length : Int) ≤ 1 :=
  running_processes_capped_amended "srv" 1 rawEx (by decide)

theorem setInsert_mem_self (s : List String) (x : String) : x ∈ setInsert s x := by
  unfold setInsert
  by_cases h : x ∈ s
  · rwa [if_pos h]
  · rw [if_neg h]
    simp

theorem setInsert_nodup (s : List String) (x : String) (h : s.Nodup) :
    (setInsert s x).Nodup := by
  unfold setInsert
  by_cases hx : x ∈ s
  · rwa [if_pos hx]
  · rw [if_neg hx]
    rw [List.nodup_append]
    refine ⟨h, List.nodup_singleton x, ?_⟩
    intro a ha hax
    simp only [List.mem_singleton] at hax
    exact hx (hax ▸ ha)

theorem mountFold_nodup (parts : List DiskPartition) (acc : List String)
    (h : acc.Nodup) : (parts.foldl mountFoldStep acc).Nodup := by
  induction parts generalizing acc with
  | nil => simpa
  | cons p ps ih =>
      rw [List.foldl_cons]
      apply ih
      unfold mountFoldStep
      by_cases h1 : isPseudoFs p.fstype = true
      · rwa [if_pos h1]
      · rw [if_neg h1]
        by_cases h2 : p.readable = true
        · rw [if_pos h2]
          exact setInsert_nodup _ _ h
        · rwa [if_neg h2]

theorem uniqueMountpoints_nodup (parts : List DiskPartition) :
    (uniqueMountpoints parts).Nodup :=
  setInsert_nodup _ _ (mountFold_nodup parts [] List.nodup_nil)

theorem diskGo_eq_sumUsage (usage : String → Option Nat) (l : List String)
    (total : Nat) (seen : List String) (hd : l.Nodup)
    (hseen : ∀ m ∈ l, m ∉ seen) :
    diskGo usage l total seen = total + sumUsage usage l := by
  induction l generalizing total seen with
  | nil => simp [diskGo, sumUsage]
  | cons m ms ih =>
      have hm : m ∉ seen := hseen m (by simp)
      have hdm : ms.Nodup := hd.of_cons
      have hnotin : m ∉ ms := (List.nodup_cons.mp hd).1
      rw [diskGo, if_neg hm]
      cases hu : usage m with
      | none =>
          show diskGo usage ms total seen = total + sumUsage usage (m :: ms)
          rw [ih total seen hdm (fun x hx => hseen x (List.mem_cons_of_mem m hx))]
          rw [sumUsage, hu]
          simp only [Option.getD_none]
          omega
      | some u =>
          show diskGo usage ms (total + u) (seen ++ [m]) = total + sumUsage usage (m :: ms)
          have hseen2 : ∀ x ∈ ms, x ∉ seen ++ [m] := by
            intro x hx
            simp only [List.mem_append, List.mem_singleton]
            push_neg
            exact ⟨hseen x (List.mem_cons_of_mem m hx), fun hxm => hnotin (hxm ▸ hx)⟩
          rw [ih (total + u) (seen ++ [m]) hdm hseen2]
          rw [sumUsage, hu]
          simp only [Option.getD_some]
          omega

theorem sumUsage_eq_map_sum (usage : String → Option Nat) (l : List String) :
    sumUsage usage l = (l.map fun m => (usage m).getD 0).sum := by
  induction l with
  | nil => rfl
  | cons m ms ih => simp [sumUsage, ih]

/-- Claim C10: for every partition list, the set of mountpoints whose usage
`_disk_used_bytes` sums always contains `"/"` — `mounts.add("/")` runs after
the filters (line 80) — and root is counted exactly once: the set is
duplicate-free, `"/"` occurs in it exactly once, and the total equals
root's used bytes (0 when `disk_usage("/")` raises) plus the summed usage
of the remaining mountpoints. -/
theorem root_mountpoint_always_summed (parts : List DiskPartition)
    (usage : String → Option Nat) :
    "/" ∈ uniqueMountpoints parts
    ∧ (uniqueMountpoints parts).count "/" = 1
    ∧ diskUsedBytes parts usage
        = (usage "/").getD 0 + sumUsage usage ((uniqueMountpoints parts).erase "/") := by
  have hmem : "/" ∈ uniqueMountpoints parts := setInsert_mem_self _ _
  have hnd : (uniqueMountpoints parts).Nodup := uniqueMountpoints_nodup parts
  refine ⟨hmem, ?_, ?_⟩
  · exact List.count_eq_one_of_mem hnd hmem
  · rw [diskUsedBytes, diskGo_eq_sumUsage usage _ 0 [] hnd (by simp), Nat.zero_add]
    have hperm : (uniqueMountpoints parts).Perm
        ("/" :: (uniqueMountpoints parts).erase "/") :=
      List.perm_cons_erase hmem
    rw [sumUsage_eq_map_sum, (hperm.map _).sum_eq, List.map_cons, List.sum_cons,
      ← sumUsage_eq_map_sum]
